import Mathlib

/-!
A shallow embedding of `src/sc2reader/objects.py` (Python 2 semantics).

Python byte strings (`str`) are modelled as `List Char` (one `Char` per byte;
all data in play is ASCII).  Fallible Python operations (IndexError from
indexing an empty string, KeyError from a dict miss, ValueError from `int()`,
AttributeError from reading an attribute that was never assigned) are modelled
with `Except PyError`.  `hashlib.sha256(...).hexdigest()` is embedded as a full
executable SHA-256 over byte lists (FIPS 180-4), producing lowercase hex.
-/

set_option maxHeartbeats 1000000
set_option maxRecDepth 100000

/-- The Python exception kinds reachable in the embedded code. -/
inductive PyError where
  | indexError
  | keyError
  | valueError
  | attributeError
  deriving DecidableEq, Repr

/-- The null byte, `'\x00'` in the Python source. -/
def nullChar : Char := Char.ofNat 0

deriving instance DecidableEq for Except

/-- Literal embedding of the loop in `Attribute.__init__` (objects.py line 84):
`while self.value[-1] == '\x00': self.value = self.value[:-1]`.
Python raises IndexError when `self.value` is empty and `[-1]` is taken,
which happens exactly when the remaining value runs out of bytes. -/
def stripNullsLoop (s : List Char) : Except PyError (List Char) :=
  match h : s.getLast? with
  | none => .error .indexError
  | some c => if c = nullChar then stripNullsLoop s.dropLast else .ok s
termination_by s.length
decreasing_by
  rcases s with _ | ⟨a, t⟩
  · simp at h
  · simp [List.length_dropLast]

/-- The same loop viewed from the right end: on the reversed byte list,
each iteration inspects the head (Python `value[-1]`) and drops it while it
is null; an empty list is the IndexError of `''[-1]`.  Structural twin of
`stripNullsLoop` (see `stripNulls_eq_loop`). -/
def stripNullsRev : List Char → Except PyError (List Char)
  | [] => .error .indexError
  | c :: rest => if c = nullChar then stripNullsRev rest else .ok (c :: rest)

/-- The null-stripping step of `Attribute.__init__`, in executable form. -/
def stripNulls (s : List Char) : Except PyError (List Char) :=
  (stripNullsRev s.reverse).map List.reverse

/-- A Python value held in an attribute: a (byte) string or an int. -/
inductive PyVal where
  | str (s : List Char)
  | int (n : Int)
  deriving DecidableEq, Repr

/-- The two shapes a truthy transform in `Attribute.id_map` can have:
a secondary code dict (e.g. `RACE_CODES`), or a callable
(`lambda value: int(value[0])`). -/
inductive Lookup where
  | table (t : List (List Char × List Char))
  | func (f : List Char → Option Int)

/-- Python dict lookup `d[k]` on an association list, `none` = KeyError. -/
def dictLookup (t : List (List Char × List Char)) (k : List Char) :
    Option (List Char) :=
  (t.find? (fun p => p.1 = k)).map (fun p => p.2)

/-- Modelled from the spec: `PLAYER_TYPE_CODES` lives in
`sc2reader/constants.py`, which is not part of the visible source; the spec
names the table but gives none of its entries. -/
def PLAYER_TYPE_CODES : List (List Char × List Char) := []

/-- Modelled from the spec: `GAME_FORMAT_CODES` (see `PLAYER_TYPE_CODES`). -/
def GAME_FORMAT_CODES : List (List Char × List Char) := []

/-- Modelled from the spec: `GAME_SPEED_CODES` (see `PLAYER_TYPE_CODES`). -/
def GAME_SPEED_CODES : List (List Char × List Char) := []

/-- Modelled from the spec: `RACE_CODES` lives in `sc2reader/constants.py`,
not part of the visible source.  The spec documents one entry by example
(section 8): raw `Terr` maps to `Terran`. -/
def RACE_CODES : List (List Char × List Char) :=
  [((r"Terr").data, (r"Terran").data)]

/-- Modelled from the spec: `TEAM_COLOR_CODES` (see `PLAYER_TYPE_CODES`). -/
def TEAM_COLOR_CODES : List (List Char × List Char) := []

/-- Modelled from the spec: `DIFFICULTY_CODES` (see `PLAYER_TYPE_CODES`). -/
def DIFFICULTY_CODES : List (List Char × List Char) := []

/-- Modelled from the spec: `GAME_TYPE_CODES` (see `PLAYER_TYPE_CODES`). -/
def GAME_TYPE_CODES : List (List Char × List Char) := []

/-- Python `int(c)` on a one-character string: the digit value, or ValueError
(`none`) when the character is not a digit. -/
def pyIntOfChar (c : Char) : Option Int :=
  if '0' ≤ c ∧ c ≤ '9' then some ((c.toNat : Int) - 48) else none

/-- Embedding of `lambda value: int(value[0])` from `Attribute.id_map`:
IndexError on an empty string, ValueError on a non-digit first byte. -/
def teamCountTransform (v : List Char) : Option Int :=
  v.head?.bind pyIntOfChar

/-- Embedding of the class attribute `Attribute.id_map`
(objects.py lines 61-76): code -> (display name, transform).
`none` in the second component embeds Python `None` (the Handicap entry). -/
def idMap (id : Nat) : Option (List Char × Option Lookup) :=
  if id = 0x01F4 then some ((r"Player Type").data, some (.table PLAYER_TYPE_CODES))
  else if id = 0x07D1 then some ((r"Game Type").data, some (.table GAME_FORMAT_CODES))
  else if id = 0x0BB8 then some ((r"Game Speed").data, some (.table GAME_SPEED_CODES))
  else if id = 0x0BB9 then some ((r"Race").data, some (.table RACE_CODES))
  else if id = 0x0BBA then some ((r"Color").data, some (.table TEAM_COLOR_CODES))
  else if id = 0x0BBB then some ((r"Handicap").data, none)
  else if id = 0x0BBC then some ((r"Difficulty").data, some (.table DIFFICULTY_CODES))
  else if id = 0x0BC1 then some ((r"Category").data, some (.table GAME_TYPE_CODES))
  else if id = 0x07D2 then some ((r"Teams1v1").data, some (.func teamCountTransform))
  else if id = 0x07D3 then some ((r"Teams2v2").data, some (.func teamCountTransform))
  else if id = 0x07D4 then some ((r"Teams3v3").data, some (.func teamCountTransform))
  else if id = 0x07D5 then some ((r"Teams4v4").data, some (.func teamCountTransform))
  else if id = 0x07D6 then some ((r"TeamsFFA").data, some (.func teamCountTransform))
  else if id = 0x07D7 then some ((r"Teams5v5").data, some (.func teamCountTransform))
  else none

/-- The decoded attribute record (fields of the `Attribute` instance after
`__init__`): header, id, player index, value, display name. -/
structure Attribute where
  header : Int
  id : Nat
  player : Int
  value : PyVal
  name : List Char
  deriving DecidableEq, Repr

/-- Embedding of `Attribute.__init__` (objects.py lines 78-92).
The record fields `(header, id, player, value)` arrive already unpacked; the
name defaults to `Unknown`.  Steps, in source order: strip trailing null
bytes (IndexError when the value empties out), then look the id up in
`id_map`; when the entry's transform is truthy (Python: a non-empty dict or a
lambda) it is applied - a dict miss is a KeyError, `int()` of a non-digit is
a ValueError. -/
def Attribute.init (header : Int) (id : Nat) (player : Int)
    (value : List Char) : Except PyError Attribute :=
  match stripNulls value with
  | .error e => .error e
  | .ok v =>
    match idMap id with
    | none => .ok ⟨header, id, player, .str v, (r"Unknown").data⟩
    | some (nm, lk) =>
      match lk with
      | none => .ok ⟨header, id, player, .str v, nm⟩
      | some (.table t) =>
        if t.isEmpty then .ok ⟨header, id, player, .str v, nm⟩
        else
          match dictLookup t v with
          | none => .error .keyError
          | some w => .ok ⟨header, id, player, .str w, nm⟩
      | some (.func f) =>
        match f v with
        | none => .error .valueError
        | some n => .ok ⟨header, id, player, .int n, nm⟩

/-! ## SHA-256 (embedding of `hashlib.sha256(...).hexdigest()`)

FIPS 180-4, over byte lists, all words as `Nat` reduced mod `2 ^ 32`. -/

/-- Truncation to a 32-bit word. -/
def w32 (n : Nat) : Nat := n % 4294967296

/-- 32-bit right rotation. -/
def rotr32 (x n : Nat) : Nat := w32 ((x >>> n) ||| (x <<< (32 - n)))

/-- SHA-256 round constants. -/
def shaK : List Nat :=
  [1116352408, 1899447441, 3049323471,
   3921009573, 961987163, 1508970993,
   2453635748, 2870763221, 3624381080,
   310598401, 607225278, 1426881987,
   1925078388, 2162078206, 2614888103,
   3248222580, 3835390401, 4022224774,
   264347078, 604807628, 770255983,
   1249150122, 1555081692, 1996064986,
   2554220882, 2821834349, 2952996808,
   3210313671, 3336571891, 3584528711,
   113926993, 338241895, 666307205,
   773529912, 1294757372, 1396182291,
   1695183700, 1986661051, 2177026350,
   2456956037, 2730485921, 2820302411,
   3259730800, 3345764771, 3516065817,
   3600352804, 4094571909, 275423344,
   430227734, 506948616, 659060556,
   883997877, 958139571, 1322822218,
   1537002063, 1747873779, 1955562222,
   2024104815, 2227730452, 2361852424,
   2428436474, 2756734187, 3204031479,
   3329325298]

/-- SHA-256 initial hash state. -/
def shaH0 : List Nat :=
  [1779033703, 3144134277, 1013904242,
   2773480762, 1359893119, 2600822924,
   528734635, 1541459225]

/-- `Ch(x, y, z)`. -/
def shaCh (x y z : Nat) : Nat := (x &&& y) ^^^ ((x ^^^ 0xFFFFFFFF) &&& z)

/-- `Maj(x, y, z)`. -/
def shaMaj (x y z : Nat) : Nat := (x &&& y) ^^^ (x &&& z) ^^^ (y &&& z)

/-- `Σ0`. -/
def bigSigma0 (x : Nat) : Nat := rotr32 x 2 ^^^ rotr32 x 13 ^^^ rotr32 x 22

/-- `Σ1`. -/
def bigSigma1 (x : Nat) : Nat := rotr32 x 6 ^^^ rotr32 x 11 ^^^ rotr32 x 25

/-- `σ0`. -/
def smallSigma0 (x : Nat) : Nat := rotr32 x 7 ^^^ rotr32 x 18 ^^^ (x >>> 3)

/-- `σ1`. -/
def smallSigma1 (x : Nat) : Nat := rotr32 x 17 ^^^ rotr32 x 19 ^^^ (x >>> 10)

/-- Big-endian byte encoding of `v` on `k` bytes. -/
def beBytes : Nat → Nat → List Nat
  | 0, _ => []
  | k + 1, v => beBytes k (v / 256) ++ [v % 256]

/-- Group bytes four at a time into big-endian 32-bit words. -/
def beWords : List Nat → List Nat
  | b0 :: b1 :: b2 :: b3 :: rest =>
    (((b0 * 256 + b1) * 256 + b2) * 256 + b3) :: beWords rest
  | _ => []

/-- SHA-256 padding: append `0x80`, zeros, then the 64-bit bit length. -/
def shaPad (msg : List Nat) : List Nat :=
  msg ++ [0x80] ++ List.replicate ((55 + 64 - msg.length % 64) % 64) 0
      ++ beBytes 8 (8 * msg.length)

/-- Split a byte list into 64-byte blocks. -/
def chunks64 (l : List Nat) : List (List Nat) :=
  if l = [] then [] else l.take 64 :: chunks64 (l.drop 64)
termination_by l.length
decreasing_by
  rcases l with _ | ⟨a, t⟩
  · simp at *
  · simp
    omega

/-- Extend a 16-word block to the 64-word message schedule (`k` rounds left). -/
def shaExtend : Nat → List Nat → List Nat
  | 0, ws => ws
  | k + 1, ws =>
    let n := ws.length
    shaExtend k (ws ++ [w32 (smallSigma1 (ws.getD (n - 2) 0) + ws.getD (n - 7) 0
      + smallSigma0 (ws.getD (n - 15) 0) + ws.getD (n - 16) 0)])

/-- One compression round on the 8-word working state. -/
def shaRound (st : List Nat) (ki : Nat) (wi : Nat) : List Nat :=
  match st with
  | [a, b, c, d, e, f, g, h] =>
    let t1 := w32 (h + bigSigma1 e + shaCh e f g + ki + wi)
    let t2 := w32 (bigSigma0 a + shaMaj a b c)
    [w32 (t1 + t2), a, b, c, w32 (d + t1), e, f, g]
  | _ => st

/-- Compress one 64-byte block into the running hash state. -/
def shaBlock (H : List Nat) (block : List Nat) : List Nat :=
  let ws := shaExtend 48 (beWords block)
  let st := (List.zip shaK ws).foldl (fun s p => shaRound s p.1 p.2) H
  List.zipWith (fun x y => w32 (x + y)) H st

/-- SHA-256 digest of a byte list, as 32 bytes. -/
def sha256bytes (msg : List Nat) : List Nat :=
  ((chunks64 (shaPad msg)).foldl shaBlock shaH0).foldr
    (fun w acc => beBytes 4 w ++ acc) []

/-- One lowercase hex digit. -/
def hexDigit (n : Nat) : Char :=
  if n < 10 then Char.ofNat (48 + n) else Char.ofNat (87 + n)

/-- Lowercase hex of one byte. -/
def hexByte (b : Nat) : List Char := [hexDigit (b / 16), hexDigit (b % 16)]

/-- `hashlib.sha256(msg).hexdigest()`: 64 lowercase hex characters. -/
def sha256hex (msg : List Nat) : List Char :=
  (sha256bytes msg).foldr (fun b acc => hexByte b ++ acc) []

/-- A Python 2 `str` as its byte values (all data in play is ASCII). -/
def toBytes (s : List Char) : List Nat := s.map Char.toNat

/-! ## Sorting and joining url strings (for `Team.hash`) -/

/-- Python byte-string comparison `a <= b`: lexicographic by byte value. -/
def strLe : List Char → List Char → Bool
  | [], _ => true
  | _ :: _, [] => false
  | a :: as, b :: bs => if a < b then true else if a = b then strLe as bs else false

/-- Insert into a `strLe`-sorted list, preserving order. -/
def insertStr (s : List Char) : List (List Char) → List (List Char)
  | [] => [s]
  | t :: ts => if strLe s t then s :: t :: ts else t :: insertStr s ts

/-- Embedding of Python `sorted(...)` on byte strings.  Any correct sort
agrees with insertion sort here: `strLe` is total and antisymmetric, so the
sorted permutation is unique (see `sorted_perm_unique`). -/
def sortStrs (l : List (List Char)) : List (List Char) := l.foldr insertStr []

/-- Embedding of Python `','.join(...)`: a single comma between consecutive
elements, no trailing separator. -/
def commaJoin : List (List Char) → List Char
  | [] => []
  | [s] => s
  | s :: rest => s ++ ',' :: commaJoin rest

/-! ## Person / Player / Team

`Player.team` in the source is a reference to a shared `Team` object; here a
player holds an index into a team store (`List Team`) so that several players
can alias one team and a mutation of `team.result` is visible through all of
them.  `gateway` and `uid` are read by `Player.url` but never assigned in
`objects.py` (an external collaborator sets them); they are `Option`s whose
`none` is Python's AttributeError.  `messages`/`events` hold values opaque to
this core; object identity of those containers is modelled separately below
(see the `Heap` section). -/

/-- Fields of a `Player` instance (class defaults from objects.py lines
159-190 for the fields `__init__` does not assign). -/
structure Player where
  pid : Int
  name : List Char
  is_observer : Option Bool
  is_human : Bool
  recorder : Bool
  team : Option Nat
  pick_race : List Char
  play_race : List Char
  difficulty : List Char
  handicap : Int
  region : List Char
  subregion : Int
  gateway : Option (List Char)
  uid : Option Int
  deriving DecidableEq, Repr

/-- `Player.__init__` (objects.py lines 188-190) plus `Person.__init__`
(lines 133-140) and the class-level defaults visible to the new instance. -/
def Player.init (pid : Int) (name : List Char) : Player :=
  { pid := pid, name := name, is_observer := some false, is_human := false,
    recorder := false, team := none, pick_race := [], play_race := [],
    difficulty := [], handicap := 0, region := [], subregion := 0,
    gateway := none, uid := none }

/-- Python `str(n)` on an int (the `%s` conversion). -/
def pyIntStr (n : Int) : List Char := (toString n).data

/-- `Player.url` (objects.py lines 192-195):
`URL_TEMPLATE % (self.gateway, self.uid, self.subregion, self.name)` with
`URL_TEMPLATE = "http://%s.battle.net/sc2/en/profile/%s/%s/%s/"`.
Reading `self.gateway` or `self.uid` before an external collaborator has
assigned them is an AttributeError. -/
def Player.url (p : Player) : Except PyError (List Char) :=
  match p.gateway, p.uid with
  | some g, some u =>
    .ok ((r"http://").data ++ g ++ (r".battle.net/sc2/en/profile/").data
      ++ pyIntStr u ++ [ '/' ] ++ pyIntStr p.subregion ++ [ '/' ]
      ++ p.name ++ [ '/' ])
  | _, _ => .error .attributeError

/-- Fields of a `Team` instance. -/
structure Team where
  number : Int
  players : List Player
  result : List Char
  lineup : List Char
  deriving DecidableEq, Repr

/-- `Team.__init__` (objects.py lines 44-48). -/
def Team.init (number : Int) : Team :=
  { number := number, players := [], result := (r"Unknown").data, lineup := [] }

/-- The generator `(p.url for p in self.players)` as consumed by `sorted`:
urls in player order, the first AttributeError aborting the whole read. -/
def mapUrls : List Player → Except PyError (List (List Char))
  | [] => .ok []
  | p :: ps =>
    match p.url with
    | .error e => .error e
    | .ok u =>
      match mapUrls ps with
      | .error e => .error e
      | .ok us => .ok (u :: us)

/-- The string handed to the digest in `Team.hash`:
`','.join(sorted(p.url for p in self.players))`. -/
def rawHash (urls : List (List Char)) : List Char := commaJoin (sortStrs urls)

/-- `Team.hash` (objects.py lines 53-56):
`hashlib.sha256(','.join(sorted(p.url for p in self.players))).hexdigest()`. -/
def Team.hash (t : Team) : Except PyError (List Char) :=
  match mapUrls t.players with
  | .error e => .error e
  | .ok urls => .ok (sha256hex (toBytes (rawHash urls)))

/-- Assignment `team.result = r` through a reference into the team store
(out-of-range indices leave the store unchanged; theorems always supply an
in-range reference). -/
def setTeamResult (store : List Team) (i : Nat) (res : List Char) : List Team :=
  match store[i]? with
  | some t => store.set i { t with result := res }
  | none => store

/-- `Player.result` (objects.py lines 200-203): `return self.team.result`;
`self.team` is `None` until assigned, and `None.result` is an
AttributeError. -/
def Player.result (store : List Team) (p : Player) :
    Except PyError (List Char) :=
  match p.team with
  | none => .error .attributeError
  | some i =>
    match store[i]? with
    | some t => .ok t.result
    | none => .error .attributeError

/-! ## Graph -/

/-- Fields of a `Graph` instance (times and values of a score-screen
series). -/
structure Graph where
  times : List Int
  values : List Int
  deriving DecidableEq, Repr

/-- `Graph.__init__` (objects.py lines 221-231).  `xy_list` defaults to
`None`; `if xy_list:` is Python truthiness, so an empty pair list also takes
the `else` branch.  The loop `for x, y in xy_list: times.append(x);
values.append(y)` is the fold; no length check of any kind is performed on
the parallel-sequence form. -/
def Graph.init (x : List Int) (y : List Int)
    (xy_list : Option (List (Int × Int))) : Graph :=
  match xy_list with
  | some l =>
    if l.isEmpty then { times := x, values := y }
    else
      let p := l.foldl (fun acc q => (acc.1 ++ [q.1], acc.2 ++ [q.2])) ([], [])
      { times := p.1, values := p.2 }
  | none => { times := x, values := y }

/-- `Graph.as_points` (objects.py lines 233-235): `zip(self.times,
self.values)` (Python 2 `zip` produces the list of pairs, truncating to the
shorter input). -/
def Graph.as_points (g : Graph) : List (Int × Int) :=
  List.zip g.times g.values

/-! ## Object identity of default containers (for `PlayerSummary`)

`PlayerSummary.__init__` (objects.py lines 291-295) reads

    def __init__(self, pid):
        unknown2 = dict()
        stats = dict()
        self.pid = pid

The two `dict()` results are bound to *local* variables and dropped; only
`self.pid` becomes an instance attribute.  Python attribute lookup then
resolves `instance.stats` through the class body, where `stats = dict()`
(line 289) ran once at class-creation time - one dict object shared by every
instance.  To talk about this, dict and list objects live in a heap and
attribute values are references; `getattr` falls back from the instance
`__dict__` to the class attribute. -/

/-- A heap of Python container objects: dict objects (association lists,
string keys, int values suffice for the stats observations) and list
objects. -/
structure Heap where
  dicts : List (List (List Char × Int))
  lists : List (List Int)
  deriving DecidableEq, Repr

/-- The empty heap. -/
def Heap.empty : Heap := { dicts := [], lists := [] }

/-- `dict()`: allocate a fresh empty dict, returning its reference. -/
def newDict (h : Heap) : Heap × Nat :=
  ({ h with dicts := h.dicts ++ [[]] }, h.dicts.length)

/-- `list()`: allocate a fresh empty list, returning its reference. -/
def newList (h : Heap) : Heap × Nat :=
  ({ h with lists := h.lists ++ [[]] }, h.lists.length)

/-- Python dict assignment `d[k] = v` on an association list. -/
def assocSet : List (List Char × Int) → List Char → Int → List (List Char × Int)
  | [], k, v => [(k, v)]
  | (k', v') :: rest, k, v =>
    if k' = k then (k, v) :: rest else (k', v') :: assocSet rest k v

/-- `d[k] = v` through a dict reference. -/
def dictSet (h : Heap) (ref : Nat) (k : List Char) (v : Int) : Heap :=
  { h with dicts := h.dicts.set ref (assocSet (h.dicts.getD ref []) k v) }

/-- `d.get(k)` through a dict reference. -/
def dictGet (h : Heap) (ref : Nat) (k : List Char) : Option Int :=
  ((h.dicts.getD ref []).find? (fun p => p.1 = k)).map (fun p => p.2)

/-- The class attributes of `PlayerSummary` that hold container objects:
`unknown2 = dict()` (line 280) and `stats = dict()` (line 289), evaluated
once when the class body runs. -/
structure PlayerSummaryClass where
  unknown2 : Nat
  stats : Nat
  deriving DecidableEq, Repr

/-- Evaluation of the `PlayerSummary` class body: the two class-level
`dict()` calls. -/
def playerSummaryClassInit (h : Heap) : Heap × PlayerSummaryClass :=
  let r1 := newDict h
  let r2 := newDict r1.1
  (r2.1, { unknown2 := r1.2, stats := r2.2 })

/-- A `PlayerSummary` instance: its `__dict__` maps attribute names to dict
references (plus the plain `pid` field). -/
structure PlayerSummary where
  pid : Int
  instAttrs : List (List Char × Nat)
  deriving DecidableEq, Repr

/-- `PlayerSummary.__init__` (objects.py lines 291-295): two fresh dicts are
allocated but bound only to locals, so no instance attribute is created for
`stats` or `unknown2`; only `self.pid` is set. -/
def PlayerSummary.init (h : Heap) (pid : Int) : Heap × PlayerSummary :=
  let r1 := newDict h
  let r2 := newDict r1.1
  (r2.1, { pid := pid, instAttrs := [] })

/-- Attribute lookup `ps.stats`: the instance `__dict__` first, then the
class attribute. -/
def PlayerSummary.statsRef (cls : PlayerSummaryClass) (ps : PlayerSummary) :
    Nat :=
  (((ps.instAttrs).find? (fun p => p.1 = (r"stats").data)).map
    (fun p => p.2)).getD cls.stats

/-- Attribute lookup `ps.unknown2`. -/
def PlayerSummary.unknown2Ref (cls : PlayerSummaryClass)
    (ps : PlayerSummary) : Nat :=
  (((ps.instAttrs).find? (fun p => p.1 = (r"unknown2").data)).map
    (fun p => p.2)).getD cls.unknown2

/-- A `Person` instance for the container-identity question:
`Person.__init__` (objects.py lines 133-140) runs `self.messages = list()`
and `self.events = list()`, so each instance records fresh list references
in its own `__dict__`. -/
structure PersonObj where
  pid : Int
  name : List Char
  messagesRef : Nat
  eventsRef : Nat
  deriving DecidableEq, Repr

/-- `Person.__init__` in the heap model: allocates `messages` and `events`
and stores their references as instance attributes. -/
def PersonObj.init (h : Heap) (pid : Int) (name : List Char) :
    Heap × PersonObj :=
  let r1 := newList h
  let r2 := newList r1.1
  (r2.1, { pid := pid, name := name, messagesRef := r1.2, eventsRef := r2.2 })

/-! ## Concrete instances used by counterexamples and witnesses -/

/-- The url the spec's words ascribe to a player (section 4.4):
`http://{region}.battle.net/sc2/en/profile/{bnetUid}/{subregion}/{name}/`,
built from the player's `region` field (the spec's name `bnetUid` denotes the
battle.net uid, the code's `uid`).  Stated for comparison with `Player.url`,
which instead reads the externally assigned `gateway` attribute. -/
def specRegionUrl (p : Player) : List Char :=
  (r"http://").data ++ p.region ++ (r".battle.net/sc2/en/profile/").data
    ++ pyIntStr (p.uid.getD 0) ++ [ '/' ] ++ pyIntStr p.subregion ++ [ '/' ]
    ++ p.name ++ [ '/' ]

/-- A player whose `region` field ([us]) differs from its externally
assigned `gateway` ([eu]); all the fields the claim requires are set and
non-default. -/
def playerC7 : Player :=
  { Player.init 2 ((r"n").data) with
    region := (r"us").data
    gateway := some ((r"eu").data)
    uid := some 5
    subregion := 1 }

/-- First player of the C1 hash-collision teams.  Its url is
`u,w,u` where `u = http://e.battle.net/sc2/en/profile/1/1/n/` and
`w = http://x.battle.net/sc2/en/profile/1/1/n/` (the name contains `/` and
`,` bytes, which Python strings allow). -/
def playerHashA : Player :=
  { Player.init 1 ((r"n/,http://x.battle.net/sc2/en/profile/1/1/n/,http://e.battle.net/sc2/en/profile/1/1/n").data) with
    gateway := some ((r"e").data)
    uid := some 1
    subregion := 1 }

/-- Second player, first variant: url `u,w`. -/
def playerHashB : Player :=
  { Player.init 2 ((r"n/,http://x.battle.net/sc2/en/profile/1/1/n").data) with
    gateway := some ((r"e").data)
    uid := some 1
    subregion := 1 }

/-- Second player, second variant: url `w,u`, different from
`playerHashB.url`. -/
def playerHashC : Player :=
  { Player.init 2 ((r"n/,http://e.battle.net/sc2/en/profile/1/1/n").data) with
    gateway := some ((r"x").data)
    uid := some 1
    subregion := 1 }

/-- Team of `playerHashA` and `playerHashB`. -/
def teamHash1 : Team := { Team.init 1 with players := [playerHashA, playerHashB] }

/-- `teamHash1` with only the second player's url changed
(`playerHashB` to `playerHashC`). -/
def teamHash2 : Team := { Team.init 1 with players := [playerHashA, playerHashC] }

/-- A two-player team for the C1 witness (comma-free urls). -/
def teamPermA : Team :=
  { Team.init 1 with players :=
    [{ Player.init 1 ((r"ann").data) with
        gateway := some ((r"us").data)
        uid := some 3
        subregion := 1 },
     { Player.init 2 ((r"bob").data) with
        gateway := some ((r"eu").data)
        uid := some 4
        subregion := 2 }] }

/-- `teamPermA` with its players listed in the opposite order. -/
def teamPermB : Team :=
  { Team.init 1 with players :=
    [{ Player.init 2 ((r"bob").data) with
        gateway := some ((r"eu").data)
        uid := some 4
        subregion := 2 },
     { Player.init 1 ((r"ann").data) with
        gateway := some ((r"us").data)
        uid := some 3
        subregion := 1 }] }

/-- One-team store for the C6 witness. -/
def storeC6 : List Team := [Team.init 1]

/-- A player on team 0 of `storeC6`. -/
def playerC6a : Player := { Player.init 1 ((r"a").data) with team := some 0 }

/-- A second player aliasing the same team object. -/
def playerC6b : Player := { Player.init 2 ((r"b").data) with team := some 0 }

/-- C10 scenario, step 1: the `PlayerSummary` class body runs once on an
empty heap. -/
def c10Class : Heap × PlayerSummaryClass := playerSummaryClassInit Heap.empty

/-- C10 scenario, step 2: `PlayerSummary(1)`. -/
def c10PS1 : Heap × PlayerSummary := PlayerSummary.init c10Class.1 1

/-- C10 scenario, step 3: `PlayerSummary(2)`. -/
def c10PS2 : Heap × PlayerSummary := PlayerSummary.init c10PS1.1 2

/-- C10 scenario, step 4: `ps1.stats['R'] = 5`. -/
def c10HeapAfter : Heap :=
  dictSet c10PS2.1 (PlayerSummary.statsRef c10Class.2 c10PS1.2) ((r"R").data) 5

/-- `playerHashA.url`: the string `u,w,u` (see `playerHashA`). -/
def urlHashA : List Char :=
  (r"http://e.battle.net/sc2/en/profile/1/1/n/,http://x.battle.net/sc2/en/profile/1/1/n/,http://e.battle.net/sc2/en/profile/1/1/n/").data

/-- `playerHashB.url`: the string `u,w`. -/
def urlHashB : List Char :=
  (r"http://e.battle.net/sc2/en/profile/1/1/n/,http://x.battle.net/sc2/en/profile/1/1/n/").data

/-- `playerHashC.url`: the string `w,u`. -/
def urlHashC : List Char :=
  (r"http://x.battle.net/sc2/en/profile/1/1/n/,http://e.battle.net/sc2/en/profile/1/1/n/").data

/-! ## Theorems: null stripping and attribute decoding -/

/-- The structural strip agrees with the literal while-loop embedding. -/
theorem stripNulls_eq_loop (s : List Char) : stripNulls s = stripNullsLoop s := by
  induction s using List.reverseRecOn with
  | nil => simp [stripNulls, stripNullsRev, stripNullsLoop, Except.map]
  | append_singleton l a ih =>
    rw [stripNullsLoop]
    rw [List.getLast?_concat]
    by_cases ha : a = nullChar
    · subst ha
      simp only [if_pos rfl, List.dropLast_concat]
      rw [← ih]
      simp [stripNulls, List.reverse_append, stripNullsRev]
    · simp only [if_neg ha]
      simp [stripNulls, List.reverse_append, stripNullsRev, ha, Except.map]

/-- On the reversed list, a leading run of nulls is dropped and the first
non-null byte stops the loop. -/
theorem stripNullsRev_nullRun (k : Nat) (c : Char) (rest : List Char)
    (hc : c ≠ nullChar) :
    stripNullsRev (List.replicate k nullChar ++ c :: rest) = .ok (c :: rest) := by
  induction k with
  | zero => simp [stripNullsRev, hc]
  | succ n ih => simpa [List.replicate_succ, stripNullsRev] using ih

/-- Stripping removes exactly the trailing null run and keeps every byte up
to and including the last non-null byte. -/
theorem stripNulls_exact (pre : List Char) (c : Char) (k : Nat)
    (hc : c ≠ nullChar) :
    stripNulls (pre ++ c :: List.replicate k nullChar) = .ok (pre ++ [c]) := by
  have hrev : (pre ++ c :: List.replicate k nullChar).reverse
      = List.replicate k nullChar ++ c :: pre.reverse := by
    simp [List.reverse_append, List.reverse_cons, List.reverse_replicate,
      List.append_assoc]
  simp [stripNulls, hrev, stripNullsRev_nullRun k c pre.reverse hc, Except.map]

/-- Claim C3: for every byte sequence that ends in `k ≥ 0` null bytes
immediately preceded by a non-null byte, the decoder's null-stripping loop
(`while self.value[-1] == '\x00': self.value = self.value[:-1]`) removes
exactly those `k` trailing bytes and no others: every byte up to and
including the last non-null byte (interior nulls included) is preserved. -/
theorem c3_strip_trailing_nulls (pre : List Char) (c : Char) (k : Nat)
    (hc : c ≠ nullChar) :
    stripNullsLoop (pre ++ c :: List.replicate k nullChar) = .ok (pre ++ [c]) := by
  rw [← stripNulls_eq_loop]
  exact stripNulls_exact pre c k hc

/-- Witness for C3 at a concrete input: `b"a\x00\x00b\x00\x00\x00"` strips
to `b"a\x00\x00b"`. -/
theorem c3_strip_trailing_nulls_witness :
    stripNullsLoop ([ 'a' , nullChar, nullChar, 'b' ]
        ++ 'b' :: List.replicate 3 nullChar)
      = .ok ([ 'a' , nullChar, nullChar, 'b' ] ++ [ 'b' ]) :=
  c3_strip_trailing_nulls [ 'a' , nullChar, nullChar, 'b' ] 'b' 3 (by decide)

/-- Claim C2 (amended): a record whose code is absent from the code table
and whose raw value strips successfully (it holds at least one non-null
byte) decodes to displayName `Unknown` with the null-stripped raw value and
no transform. -/
theorem c2_unknown_code_decode (header : Int) (id : Nat) (player : Int)
    (raw v : List Char) (hid : idMap id = none) (hv : stripNulls raw = .ok v) :
    Attribute.init header id player raw
      = .ok ⟨header, id, player, .str v, (r"Unknown").data⟩ := by
  simp [Attribute.init, hv, hid]

/-- Witness for C2 at a concrete input: code `0x0000` is absent, raw
`b"x\x00"` decodes to name `Unknown`, value `x`. -/
theorem c2_unknown_code_decode_witness :
    Attribute.init 3 0 4 ([ 'x' , nullChar])
      = .ok ⟨3, 0, 4, .str [ 'x' ], (r"Unknown").data⟩ :=
  c2_unknown_code_decode 3 0 4 ([ 'x' , nullChar]) [ 'x' ] rfl (by decide)

/-- Counterexample to C2 as stated: for the record `(0, 0x0000, 0,
b"\x00\x00")` the code is absent from the table, yet decoding does not
return an `Unknown`-named attribute with the stripped value - the stripping
loop empties the value and raises IndexError (`''[-1]`). -/
theorem c2_counterexample :
    Attribute.init 0 0 0 [nullChar, nullChar] = .error .indexError
      ∧ idMap 0 = none := by
  constructor
  · decide
  · rfl

/-- Claim C4: decoding a record whose raw value is entirely null bytes.
The claim says decode succeeds with the empty-string value; the code instead
raises IndexError from `self.value[-1]` once the value is empty.  This
evaluates the decoder at the failing input `(7, 0x01F4, 2, b"\x00")`. -/
theorem c4_allnull_raises :
    Attribute.init 7 0x01F4 2 [nullChar] = .error .indexError := by decide

/-- Claim C5: for a code present in the table with a (non-empty) secondary
code table, a miss of the stripped value in that table is a KeyError that
propagates out of decoding (the record is not returned untransformed), and a
hit returns the secondary table's value. -/
theorem c5_table_lookup (id : Nat) (nm : List Char)
    (tb : List (List Char × List Char))
    (hid : idMap id = some (nm, some (.table tb))) (hne : tb ≠ [])
    (header : Int) (player : Int) (raw v : List Char)
    (hv : stripNulls raw = .ok v) :
    (dictLookup tb v = none →
      Attribute.init header id player raw = .error .keyError) ∧
    (∀ w, dictLookup tb v = some w →
      Attribute.init header id player raw
        = .ok ⟨header, id, player, .str w, nm⟩) := by
  constructor
  · intro hmiss
    simp [Attribute.init, hv, hid, hne, hmiss]
  · intro w hw
    simp [Attribute.init, hv, hid, hne, hw]

/-! ## Theorems: sorting and joining (for Team.hash) -/

/-- `strLe` is total. -/
theorem strLe_total (a b : List Char) : strLe a b = true ∨ strLe b a = true := by
  induction a generalizing b with
  | nil => left; rfl
  | cons x xs ih =>
    cases b with
    | nil => right; rfl
    | cons y ys =>
      rcases lt_trichotomy x y with h | h | h
      · left; simp [strLe, h]
      · subst h
        rcases ih ys with h2 | h2
        · left; simp [strLe, h2]
        · right; simp [strLe, h2]
      · right; simp [strLe, h]

/-- `strLe` is antisymmetric. -/
theorem strLe_antisymm : ∀ a b : List Char,
    strLe a b = true → strLe b a = true → a = b := by
  intro a
  induction a with
  | nil =>
    intro b _ hba
    cases b with
    | nil => rfl
    | cons y ys => simp [strLe] at hba
  | cons x xs ih =>
    intro b hab hba
    cases b with
    | nil => simp [strLe] at hab
    | cons y ys =>
      rcases lt_trichotomy x y with h | h | h
      · rw [strLe] at hba
        simp [if_neg (asymm h), if_neg (ne_of_gt h)] at hba
      · subst h
        rw [strLe] at hab hba
        simp [lt_irrefl] at hab hba
        rw [ih ys hab hba]
      · rw [strLe] at hab
        simp [if_neg (asymm h), if_neg (ne_of_lt h).symm] at hab

/-- `strLe` is transitive. -/
theorem strLe_trans : ∀ a b c : List Char,
    strLe a b = true → strLe b c = true → strLe a c = true := by
  intro a
  induction a with
  | nil => intro b c _ _; rfl
  | cons x xs ih =>
    intro b c hab hbc
    cases b with
    | nil => simp [strLe] at hab
    | cons y ys =>
      cases c with
      | nil => simp [strLe] at hbc
      | cons z zs =>
        rcases lt_trichotomy x y with h1 | h1 | h1
        · rcases lt_trichotomy y z with h2 | h2 | h2
          · simp [strLe, lt_trans h1 h2]
          · subst h2; simp [strLe, h1]
          · rw [strLe] at hbc
            simp [if_neg (asymm h2), if_neg (ne_of_gt h2)] at hbc
        · subst h1
          rw [strLe] at hab
          simp [lt_irrefl] at hab
          rcases lt_trichotomy x z with h2 | h2 | h2
          · simp [strLe, h2]
          · subst h2
            rw [strLe] at hbc ⊢
            simp [lt_irrefl] at hbc ⊢
            exact ih ys zs hab hbc
          · rw [strLe] at hbc
            simp [if_neg (asymm h2), if_neg (ne_of_gt h2)] at hbc
        · rw [strLe] at hab
          simp [if_neg (asymm h1), if_neg (ne_of_gt h1)] at hab

/-- Inserting is a permutation of consing. -/
theorem insertStr_perm (s : List Char) (l : List (List Char)) :
    (insertStr s l).Perm (s :: l) := by
  induction l with
  | nil => exact List.Perm.refl _
  | cons t ts ih =>
    rw [insertStr]
    by_cases h : strLe s t = true
    · simp [h]
    · simp only [h, if_false]
      exact (ih.cons t).trans (List.Perm.swap s t ts)

/-- `sortStrs` permutes its input. -/
theorem sortStrs_perm (l : List (List Char)) : (sortStrs l).Perm l := by
  induction l with
  | nil => exact List.Perm.refl _
  | cons x xs ih =>
    exact (insertStr_perm x (sortStrs xs)).trans (ih.cons x)

/-- Inserting preserves sortedness. -/
theorem insertStr_sorted (s : List Char) (l : List (List Char))
    (hl : l.Pairwise (fun a b => strLe a b = true)) :
    (insertStr s l).Pairwise (fun a b => strLe a b = true) := by
  induction l with
  | nil => simp [insertStr]
  | cons t ts ih =>
    rw [List.pairwise_cons] at hl
    rw [insertStr]
    by_cases h : strLe s t = true
    · rw [if_pos h]
      rw [List.pairwise_cons]
      constructor
      · intro u hu
        rcases List.mem_cons.mp hu with hu | hu
        · subst hu; exact h
        · exact strLe_trans s t u h (hl.1 u hu)
      · rw [List.pairwise_cons]
        exact hl
    · rw [if_neg h]
      rw [List.pairwise_cons]
      constructor
      · intro u hu
        have hmem := (insertStr_perm s ts).mem_iff.mp hu
        rcases List.mem_cons.mp hmem with hu' | hu'
        · subst hu'
          rcases strLe_total t u with ht | ht
          · exact ht
          · exact absurd ht h
        · exact hl.1 u hu'
      · exact ih hl.2

/-- `sortStrs` sorts. -/
theorem sortStrs_sorted (l : List (List Char)) :
    (sortStrs l).Pairwise (fun a b => strLe a b = true) := by
  induction l with
  | nil => simp [sortStrs]
  | cons x xs ih => exact insertStr_sorted x (sortStrs xs) ih

/-- A sorted permutation is unique: permuted, both sorted, hence equal. -/
theorem sorted_perm_unique (l₁ l₂ : List (List Char)) (hp : l₁.Perm l₂)
    (h₁ : l₁.Pairwise (fun a b => strLe a b = true))
    (h₂ : l₂.Pairwise (fun a b => strLe a b = true)) : l₁ = l₂ := by
  haveI : IsAntisymm (List Char) (fun a b => strLe a b = true) :=
    ⟨fun a b => strLe_antisymm a b⟩
  exact List.eq_of_perm_of_sorted hp h₁ h₂

/-- Python `sorted` is a function of the multiset of inputs. -/
theorem sortStrs_eq_of_perm (l l' : List (List Char)) (h : l.Perm l') :
    sortStrs l = sortStrs l' := by
  refine sorted_perm_unique _ _ ?_ (sortStrs_sorted l) (sortStrs_sorted l')
  exact (sortStrs_perm l).trans (h.trans (sortStrs_perm l').symm)

/-- Splitting a joined string at its first comma is unambiguous when the
first components are comma-free. -/
theorem commaSplit : ∀ a b x y : List Char, ',' ∉ a → ',' ∉ b →
    a ++ ',' :: x = b ++ ',' :: y → a = b ∧ x = y := by
  intro a
  induction a with
  | nil =>
    intro b x y _ hb heq
    cases b with
    | nil => simpa using heq
    | cons c cs =>
      rw [List.nil_append, List.cons_append] at heq
      have : c = ',' := (List.cons.inj heq).1.symm
      exact absurd (this ▸ List.mem_cons_self c cs) hb
  | cons c cs ih =>
    intro b x y ha hb heq
    cases b with
    | nil =>
      rw [List.nil_append, List.cons_append] at heq
      have : c = ',' := (List.cons.inj heq).1
      exact absurd (this ▸ List.mem_cons_self c cs) ha
    | cons d ds =>
      rw [List.cons_append, List.cons_append] at heq
      obtain ⟨hcd, htail⟩ := List.cons.inj heq
      have ha' : ',' ∉ cs := fun hmem => ha (List.mem_cons_of_mem c hmem)
      have hb' : ',' ∉ ds := fun hmem => hb (List.mem_cons_of_mem d hmem)
      obtain ⟨h1, h2⟩ := ih ds x y ha' hb' htail
      exact ⟨by rw [hcd, h1], h2⟩

/-- On comma-free string lists of equal length, the comma join is
injective. -/
theorem commaJoin_inj : ∀ s t : List (List Char), s.length = t.length →
    (∀ u ∈ s, ',' ∉ u) → (∀ u ∈ t, ',' ∉ u) →
    commaJoin s = commaJoin t → s = t := by
  intro s
  induction s with
  | nil =>
    intro t hlen _ _ _
    cases t with
    | nil => rfl
    | cons v vs => simp at hlen
  | cons u us ih =>
    intro t hlen hs ht heq
    cases t with
    | nil => simp at hlen
    | cons v vs =>
      cases us with
      | nil =>
        cases vs with
        | nil => rw [show u = v from heq]
        | cons w ws => simp at hlen
      | cons u' us' =>
        cases vs with
        | nil => simp at hlen
        | cons v' vs' =>
          rw [show commaJoin (u :: u' :: us') = u ++ ',' :: commaJoin (u' :: us')
              from rfl,
            show commaJoin (v :: v' :: vs') = v ++ ',' :: commaJoin (v' :: vs')
              from rfl] at heq
          obtain ⟨h1, h2⟩ := commaSplit u v _ _
            (hs u (List.mem_cons_self u _)) (ht v (List.mem_cons_self v _)) heq
          have := ih (v' :: vs') (by simpa using hlen)
            (fun w hw => hs w (List.mem_cons_of_mem u hw))
            (fun w hw => ht w (List.mem_cons_of_mem v hw)) h2
          rw [h1, this]

/-- Replacing one list element by a different value changes the multiset. -/
theorem replace_changes_multiset (l₁ l₂ : List (List Char)) (a b : List Char)
    (hab : a ≠ b) : ¬ (l₁ ++ a :: l₂).Perm (l₁ ++ b :: l₂) := by
  intro hperm
  have h2 : (a :: l₂).Perm (b :: l₂) := (List.perm_append_left_iff l₁).mp hperm
  have h3 : (a ::ₘ (l₂ : Multiset (List Char)))
      = (b ::ₘ (l₂ : Multiset (List Char))) := by
    rw [Multiset.cons_coe, Multiset.cons_coe]
    exact Quotient.sound h2
  exact hab ((Multiset.cons_inj_left _).mp h3)

/-- Witness for C5 at concrete inputs: the Race attribute (`0x0BB9`).
`b"Terr\x00\x00"` hits the race table and decodes to `Terran`;
`b"Zerg"` misses the modelled race table and decoding fails with the
KeyError. -/
theorem c5_table_lookup_witness :
    Attribute.init 0 0x0BB9 1 ((r"Terr").data ++ [nullChar, nullChar])
        = .ok ⟨0, 0x0BB9, 1, .str ((r"Terran").data), (r"Race").data⟩ ∧
    Attribute.init 0 0x0BB9 1 ((r"Zerg").data) = .error .keyError :=
  ⟨(c5_table_lookup 0x0BB9 ((r"Race").data) RACE_CODES rfl (by decide)
      0 1 ((r"Terr").data ++ [nullChar, nullChar]) ((r"Terr").data)
      (by decide)).2 ((r"Terran").data) (by decide),
   (c5_table_lookup 0x0BB9 ((r"Race").data) RACE_CODES rfl (by decide)
      0 1 ((r"Zerg").data) ((r"Zerg").data) (by decide)).1 (by decide)⟩

/-! ## Theorems: Team.hash -/

/-- The only error `Player.url` can raise is the AttributeError of an unset
`gateway`/`uid`. -/
theorem url_error (p : Player) (e : PyError) (h : p.url = .error e) :
    e = .attributeError := by
  rcases hg : p.gateway with _ | g <;> rcases hu : p.uid with _ | u <;>
    simp [Player.url, hg, hu] at h <;> exact h.symm

/-- The only error the url generator can raise is that AttributeError. -/
theorem mapUrls_error : ∀ (l : List Player) (e : PyError),
    mapUrls l = .error e → e = .attributeError := by
  intro l
  induction l with
  | nil => intro e h; simp [mapUrls] at h
  | cons p ps ih =>
    intro e h
    rw [mapUrls] at h
    cases hp : p.url with
    | error e' =>
      rw [hp] at h
      simp at h
      exact h ▸ url_error p e' hp
    | ok u =>
      rw [hp] at h
      cases hl : mapUrls ps with
      | error e' =>
        rw [hl] at h
        simp at h
        exact h ▸ ih e' hl
      | ok us => rw [hl] at h; simp at h

/-- Reading the urls of two permuted player lists: both succeed with
permuted url lists, or both raise the same AttributeError. -/
theorem mapUrls_perm (ps ps' : List Player) (h : ps.Perm ps') :
    (∃ us us', mapUrls ps = .ok us ∧ mapUrls ps' = .ok us' ∧ us.Perm us') ∨
    (mapUrls ps = .error .attributeError
      ∧ mapUrls ps' = .error .attributeError) := by
  induction h with
  | nil => exact .inl ⟨[], [], rfl, rfl, List.Perm.refl _⟩
  | cons x htl ih =>
    cases hx : x.url with
    | error e =>
      have he := url_error x e hx
      subst he
      exact .inr ⟨by simp [mapUrls, hx], by simp [mapUrls, hx]⟩
    | ok u =>
      rcases ih with ⟨us, us', h1, h2, hp⟩ | ⟨h1, h2⟩
      · exact .inl ⟨u :: us, u :: us', by simp [mapUrls, hx, h1],
          by simp [mapUrls, hx, h2], hp.cons u⟩
      · exact .inr ⟨by simp [mapUrls, hx, h1], by simp [mapUrls, hx, h2]⟩
  | swap x y l =>
    cases hx : x.url with
    | error e =>
      have := url_error x e hx
      subst this
      cases hy : y.url with
      | error e' =>
        have := url_error y e' hy
        subst this
        exact .inr ⟨by simp [mapUrls, hx, hy], by simp [mapUrls, hx, hy]⟩
      | ok v =>
        exact .inr ⟨by simp [mapUrls, hx, hy], by simp [mapUrls, hx, hy]⟩
    | ok u =>
      cases hy : y.url with
      | error e' =>
        have := url_error y e' hy
        subst this
        exact .inr ⟨by simp [mapUrls, hx, hy], by simp [mapUrls, hx, hy]⟩
      | ok v =>
        cases hl : mapUrls l with
        | error e'' =>
          have := mapUrls_error l e'' hl
          subst this
          exact .inr ⟨by simp [mapUrls, hx, hy, hl],
            by simp [mapUrls, hx, hy, hl]⟩
        | ok us =>
          exact .inl ⟨v :: u :: us, u :: v :: us,
            by simp [mapUrls, hx, hy, hl], by simp [mapUrls, hx, hy, hl],
            List.Perm.swap u v us⟩
  | trans h₁ h₂ ih₁ ih₂ =>
    rcases ih₁ with ⟨us, us', ha, hb, hp⟩ | ⟨ha, hb⟩
    · rcases ih₂ with ⟨vs, vs', hc, hd, hq⟩ | ⟨hc, hd⟩
      · rw [hb] at hc
        injection hc with hcc
        subst hcc
        exact .inl ⟨us, vs', ha, hd, hp.trans hq⟩
      · rw [hb] at hc
        simp at hc
    · rcases ih₂ with ⟨vs, vs', hc, hd, hq⟩ | ⟨hc, hd⟩
      · rw [hb] at hc
        simp at hc
      · exact .inr ⟨ha, hd⟩

/-- `Team.hash` is a function of the multiset of players. -/
theorem hash_perm_invariant (t t' : Team) (h : t.players.Perm t'.players) :
    t.hash = t'.hash := by
  rcases mapUrls_perm _ _ h with ⟨us, us', h1, h2, hp⟩ | ⟨h1, h2⟩
  · simp [Team.hash, h1, h2, rawHash, sortStrs_eq_of_perm us us' hp]
  · simp [Team.hash, h1, h2]

/-- When the urls read out, `Team.hash` is the SHA-256 lowercase hex digest
of the comma-joined ascending sort of the urls. -/
theorem hash_digest_eq (t : Team) (us : List (List Char))
    (h : mapUrls t.players = .ok us) :
    t.hash = .ok (sha256hex (toBytes (rawHash us))) := by
  simp [Team.hash, h]

/-- With comma-free urls, replacing one url by a different one changes the
string being digested. -/
theorem rawHash_replace (l₁ l₂ : List (List Char)) (a b : List Char)
    (hab : a ≠ b) (hfa : ∀ u ∈ l₁ ++ a :: l₂, ',' ∉ u)
    (hfb : ∀ u ∈ l₁ ++ b :: l₂, ',' ∉ u) :
    rawHash (l₁ ++ a :: l₂) ≠ rawHash (l₁ ++ b :: l₂) := by
  intro heq
  have hlen : (sortStrs (l₁ ++ a :: l₂)).length
      = (sortStrs (l₁ ++ b :: l₂)).length := by
    rw [(sortStrs_perm _).length_eq, (sortStrs_perm _).length_eq]
    simp
  have hsfa : ∀ u ∈ sortStrs (l₁ ++ a :: l₂), ',' ∉ u := fun u hu =>
    hfa u ((sortStrs_perm _).mem_iff.mp hu)
  have hsfb : ∀ u ∈ sortStrs (l₁ ++ b :: l₂), ',' ∉ u := fun u hu =>
    hfb u ((sortStrs_perm _).mem_iff.mp hu)
  have hsort : sortStrs (l₁ ++ a :: l₂) = sortStrs (l₁ ++ b :: l₂) :=
    commaJoin_inj _ _ hlen hsfa hsfb heq
  have hstep : (sortStrs (l₁ ++ a :: l₂)).Perm (l₁ ++ b :: l₂) := by
    rw [hsort]
    exact sortStrs_perm _
  exact replace_changes_multiset l₁ l₂ a b hab
    ((sortStrs_perm _).symm.trans hstep)

/-- Claim C1 (amended): `Team.hash` is invariant under reordering of
`players`; it equals the SHA-256 digest, hex-encoded lowercase, of the
comma-joined (single comma, no trailing separator) lexicographically
ascending sort of the players' url strings; and when no url contains a
comma byte, changing one player's url to a different string changes the
digested string.  (As stated the claim also asserted the hash itself always
changes; `c1_counterexample` shows comma-containing urls defeat that.) -/
theorem c1_team_hash :
    (∀ t t' : Team, t.players.Perm t'.players → t.hash = t'.hash) ∧
    (∀ (t : Team) (us : List (List Char)), mapUrls t.players = .ok us →
      t.hash = .ok (sha256hex (toBytes (rawHash us)))) ∧
    (∀ (l₁ l₂ : List (List Char)) (a b : List Char), a ≠ b →
      (∀ u ∈ l₁ ++ a :: l₂, ',' ∉ u) → (∀ u ∈ l₁ ++ b :: l₂, ',' ∉ u) →
      rawHash (l₁ ++ a :: l₂) ≠ rawHash (l₁ ++ b :: l₂)) :=
  ⟨hash_perm_invariant, hash_digest_eq, rawHash_replace⟩

/-- Witness for C1 at concrete inputs: the two-player team hashes equal its
reordering; its hash is the digest of its sorted joined urls; and two
distinct comma-free one-element url lists produce different digest
inputs. -/
theorem c1_team_hash_witness :
    teamPermA.hash = teamPermB.hash ∧
    teamPermA.hash = .ok (sha256hex (toBytes (rawHash
      [(r"http://us.battle.net/sc2/en/profile/3/1/ann/").data,
       (r"http://eu.battle.net/sc2/en/profile/4/2/bob/").data]))) ∧
    rawHash ([] ++ [ 'a' ] :: []) ≠ rawHash ([] ++ [ 'b' ] :: []) :=
  ⟨c1_team_hash.1 teamPermA teamPermB (by decide),
   c1_team_hash.2.1 teamPermA _ (by decide),
   c1_team_hash.2.2 [] [] [ 'a' ] [ 'b' ] (by decide) (by decide)
     (by decide)⟩

/-- Counterexample to C1's final clause as stated: `teamHash2` is
`teamHash1` with (only) the second player's url changed to a different
string, yet both teams read the same `hash` - with comma bytes inside urls
the sorted comma-joined strings coincide, so the digest cannot tell the
teams apart. -/
theorem c1_counterexample :
    Player.url playerHashB ≠ Player.url playerHashC ∧
    teamHash1.players.length = teamHash2.players.length ∧
    (teamHash1.players.take 1 = teamHash2.players.take 1) ∧
    teamHash1.hash = teamHash2.hash := by
  refine ⟨by decide, by decide, by decide, ?_⟩
  have h1 : mapUrls teamHash1.players = .ok [urlHashA, urlHashB] := by decide
  have h2 : mapUrls teamHash2.players = .ok [urlHashA, urlHashC] := by decide
  have h3 : rawHash [urlHashA, urlHashB] = rawHash [urlHashA, urlHashC] := by
    decide
  simp only [Team.hash, h1, h2, h3]

/-! ## Theorems: result delegation, url fields, Graph, container identity -/

/-- Claim C6: after `team.result = "Win"`, every player whose `team`
reference points at that team object reads `result == "Win"` through the
delegating property, and no team's player list (hence no per-player field)
is touched by the assignment. -/
theorem c6_result_delegation (store : List Team) (i : Nat) (p : Player)
    (hp : p.team = some i) (hi : i < store.length) :
    Player.result (setTeamResult store i ((r"Win").data)) p
      = .ok ((r"Win").data) ∧
    (∀ j : Nat, ((setTeamResult store i ((r"Win").data))[j]?).map Team.players
      = (store[j]?).map Team.players) := by
  have hsome : store[i]? = some store[i] := List.getElem?_eq_getElem hi
  constructor
  · simp [Player.result, hp, setTeamResult, hsome, List.getElem?_set, hi]
  · intro j
    by_cases hij : i = j
    · subst hij
      simp [setTeamResult, hsome, List.getElem?_set, hi]
    · simp [setTeamResult, hsome, List.getElem?_set, hij]

/-- Witness for C6 at concrete inputs: both players aliasing team 0 of the
one-team store read `Win` after the team assignment, and the store's player
lists are untouched. -/
theorem c6_result_delegation_witness :
    Player.result (setTeamResult storeC6 0 ((r"Win").data)) playerC6a
      = .ok ((r"Win").data) ∧
    Player.result (setTeamResult storeC6 0 ((r"Win").data)) playerC6b
      = .ok ((r"Win").data) ∧
    ((setTeamResult storeC6 0 ((r"Win").data))[0]?).map Team.players
      = (storeC6[0]?).map Team.players :=
  ⟨(c6_result_delegation storeC6 0 playerC6a (by decide) (by decide)).1,
   (c6_result_delegation storeC6 0 playerC6b (by decide) (by decide)).1,
   (c6_result_delegation storeC6 0 playerC6a (by decide) (by decide)).2 0⟩

/-- Claim C7 (amended): with the externally assigned `gateway` and `uid`
attributes set, `Player.url` is
`http://{gateway}.battle.net/sc2/en/profile/{uid}/{subregion}/{name}/`;
the `region` field declared on the class is not read by `url`. -/
theorem c7_url_format (p : Player) (g : List Char) (u : Int)
    (hg : p.gateway = some g) (hu : p.uid = some u) :
    p.url = .ok ((r"http://").data ++ g
      ++ (r".battle.net/sc2/en/profile/").data ++ pyIntStr u ++ [ '/' ]
      ++ pyIntStr p.subregion ++ [ '/' ] ++ p.name ++ [ '/' ]) := by
  simp [Player.url, hg, hu]

/-- Witness for C7 at a concrete input. -/
theorem c7_url_format_witness :
    playerC7.url = .ok ((r"http://").data ++ (r"eu").data
      ++ (r".battle.net/sc2/en/profile/").data ++ pyIntStr 5 ++ [ '/' ]
      ++ pyIntStr playerC7.subregion ++ [ '/' ] ++ playerC7.name ++ [ '/' ]) :=
  c7_url_format playerC7 ((r"eu").data) 5 (by decide) (by decide)

/-- Counterexample to C7 as stated: `playerC7` has `region`, the battle.net
uid, `subregion` and `name` all set and non-empty/non-default, yet `url`
returns the string built from the `gateway` attribute ([eu]), not the one
the claim's formula builds from the `region` field ([us]). -/
theorem c7_counterexample :
    playerC7.url = .ok ((r"http://eu.battle.net/sc2/en/profile/5/1/n/").data) ∧
    specRegionUrl playerC7
      = (r"http://us.battle.net/sc2/en/profile/5/1/n/").data ∧
    playerC7.url ≠ .ok (specRegionUrl playerC7) ∧
    playerC7.region ≠ [] ∧ playerC7.name ≠ [] ∧ playerC7.uid ≠ none ∧
    playerC7.subregion ≠ 0 := by decide

/-- Claim C8 (amended): the parallel-sequence form of `Graph.__init__`
performs no length check at all - it succeeds for any two sequences,
storing them exactly as given, even when their lengths differ. -/
theorem c8_no_length_check (x y : List Int) :
    Graph.init x y none = { times := x, values := y } := rfl

/-- Counterexample to C8 as stated: constructing a Graph from the unequal
parallel sequences `[1, 2]` and `[3]` does not fail with any length
mismatch error - it succeeds and silently stores sequences of different
lengths. -/
theorem c8_counterexample :
    Graph.init [1, 2] [3] none = { times := [1, 2], values := [3] } ∧
    (Graph.init [1, 2] [3] none).times.length
      ≠ (Graph.init [1, 2] [3] none).values.length := by decide

/-- Unzipping loop of `Graph.__init__`: appending pair components one at a
time is mapping the projections. -/
theorem graph_fold (L : List (Int × Int)) : ∀ ts vs : List Int,
    L.foldl (fun acc q => (acc.1 ++ [q.1], acc.2 ++ [q.2])) (ts, vs)
      = (ts ++ L.map Prod.fst, vs ++ L.map Prod.snd) := by
  induction L with
  | nil => intro ts vs; simp
  | cons p ps ih =>
    intro ts vs
    simp [List.foldl_cons, ih, List.append_assoc]

/-- Claim C9: `as_points` is the element-wise zip of the stored sequences,
its length is `min(len(times), len(values))`, and constructing from a pair
list gives exactly the sequences of the pre-unzipped construction. -/
theorem c9_graph_points :
    (∀ g : Graph, (Graph.as_points g).length
      = min g.times.length g.values.length) ∧
    (∀ L : List (Int × Int), Graph.init [] [] (some L)
      = Graph.init (L.map Prod.fst) (L.map Prod.snd) none) ∧
    (∀ g : Graph, Graph.as_points g = List.zip g.times g.values) := by
  refine ⟨?_, ?_, fun g => rfl⟩
  · intro g
    simp [Graph.as_points, List.length_zip]
  · intro L
    cases L with
    | nil => rfl
    | cons p ps =>
      simp [Graph.init, graph_fold]

/-- Claim C10: the code at the failing input.  Two `PlayerSummary`
instances resolve `stats` (and `unknown2`) to the same class-level dict
object, because `__init__` binds its fresh dicts to locals instead of
instance attributes; the write `ps1.stats['R'] = 5` is therefore visible
through `ps2.stats`.  By contrast `Person.__init__` does assign
per-instance containers (`self.messages = list()`), so two `Person`
instances hold distinct list references. -/
theorem c10_shared_class_dict :
    PlayerSummary.statsRef c10Class.2 c10PS1.2
      = PlayerSummary.statsRef c10Class.2 c10PS2.2 ∧
    PlayerSummary.unknown2Ref c10Class.2 c10PS1.2
      = PlayerSummary.unknown2Ref c10Class.2 c10PS2.2 ∧
    dictGet c10HeapAfter (PlayerSummary.statsRef c10Class.2 c10PS2.2)
      ((r"R").data) = some 5 ∧
    (PersonObj.init c10HeapAfter 1 ((r"a").data)).2.messagesRef
      ≠ (PersonObj.init (PersonObj.init c10HeapAfter 1 ((r"a").data)).1 2
          ((r"b").data)).2.messagesRef := by decide
